/-
Verification development for the ThermalRes simulation core.

The Python source is shallowly embedded in Lean 4: Python floats are
modelled as rationals, Python ints as Nat or Int, mutable objects as
explicit state passing, and the seeded pseudo-random generator as an
explicit deterministic state machine (a state type together with a next
function), which is all the claims below depend on.  Wall-clock
timestamps in run metadata are impure and are omitted; the run result
keeps the chunk, time-series, event and link-state sequences that the
claims are about, plus a ghost counter of controller invocations.
-/
import Mathlib

/-! ## Shared data types (thermalres.cosim.interfaces) -/

/-- Plant inputs: heater duty, workload fraction, timestep seconds. -/
structure PlantInputs where
  heater_duty : ℚ
  workload_frac : ℚ
  dt_s : ℚ
deriving Repr, DecidableEq

/-- Plant outputs: temperature, resonance, signed detune, lock flag and
CRC failure probability. -/
structure PlantOutputs where
  temp_c : ℚ
  resonance_nm : ℚ
  detune_nm : ℚ
  locked : Bool
  crc_fail_prob : ℚ
deriving Repr, DecidableEq

/-- Controller observation bundle. -/
structure ControlInputs where
  dt_s : ℚ
  temp_c : ℚ
  detune_nm : ℚ
  locked : Bool
  crc_fail_prob : ℚ
  detune_target_nm : ℚ
deriving Repr, DecidableEq

/-- Controller outputs: commanded heater duty and scalar error. -/
structure ControlOutputs where
  heater_duty : ℚ
  error : ℚ
deriving Repr, DecidableEq

/-- Realized CRC event for one simulated step. -/
structure CrcEvent where
  cycle : Nat
  chunk_idx : Nat
  crc_fail : Bool
  crc_fail_prob : ℚ
deriving Repr, DecidableEq

/-- Recorded link monitor state sample. -/
structure LinkStateSample where
  cycle : Nat
  link_up : Bool
  total_frames : Nat
  total_crc_fails : Nat
  consec_fails : Nat
  consec_passes : Nat
deriving Repr, DecidableEq

/-- Chunk summary: index and the half-open cycle range it covers. -/
structure ChunkSummary where
  chunk_idx : Nat
  start_cycle : Nat
  end_cycle : Nat
deriving Repr, DecidableEq

/-- Per-step time-series record of plant output plus the inputs that
produced it plus optional controller error and active flag. -/
structure TimeSeriesSample where
  cycle : Nat
  temp_c : ℚ
  detune_nm : ℚ
  locked : Bool
  crc_fail_prob : ℚ
  heater_duty : ℚ
  workload_frac : ℚ
  controller_error : Option ℚ
  controller_active : Bool
deriving Repr, DecidableEq

/-! ## Thermal model (thermalres.plant.thermal) -/

/-- Parameters of the first-order RC thermal model. -/
structure ThermalParams where
  ambient_c : ℚ
  r_th_c_per_w : ℚ
  c_th_j_per_c : ℚ
  heater_w_max : ℚ
  workload_w_max : ℚ
deriving Repr, DecidableEq

/-- Thermal state: the current temperature. -/
structure ThermalState where
  temp_c : ℚ
deriving Repr, DecidableEq

/-- One forward-Euler step of the RC thermal model, mirroring
step_thermal in thermalres/plant/thermal.py: clamp both duty inputs to
the unit interval, form the input power, and integrate
dT/dt = (P * R - (T - Tambient)) / (R * C). -/
def step_thermal (state : ThermalState) (dt_s : ℚ) (heater_duty : ℚ)
    (workload_frac : ℚ) (p : ThermalParams) : ThermalState :=
  let heater_duty := max 0 (min 1 heater_duty)
  let workload_frac := max 0 (min 1 workload_frac)
  let heater_w := heater_duty * p.heater_w_max
  let workload_w := workload_frac * p.workload_w_max
  let p_in := heater_w + workload_w
  let temp_delta_from_ambient := state.temp_c - p.ambient_c
  let numerator := p_in * p.r_th_c_per_w - temp_delta_from_ambient
  let denominator := p.r_th_c_per_w * p.c_th_j_per_c
  let dt_dt := numerator / denominator
  ⟨state.temp_c + dt_s * dt_dt⟩

/-! ## Resonator model (thermalres.plant.resonator) -/

/-- Parameters of the photonic resonator model. -/
structure ResonatorParams where
  lambda0_nm : ℚ
  thermo_optic_nm_per_c : ℚ
  lock_window_nm : ℚ
  target_lambda_nm : ℚ
  ambient_c : ℚ
deriving Repr, DecidableEq

/-- Resonator outputs. -/
structure ResonatorOutputs where
  resonance_nm : ℚ
  detune_nm : ℚ
  locked : Bool
deriving Repr, DecidableEq

/-- Pure resonator evaluation, mirroring eval_resonator in
thermalres/plant/resonator.py. -/
def eval_resonator (temp_c : ℚ) (p : ResonatorParams) : ResonatorOutputs :=
  let temp_delta := temp_c - p.ambient_c
  let resonance_nm := p.lambda0_nm + p.thermo_optic_nm_per_c * temp_delta
  let detune_nm := p.target_lambda_nm - resonance_nm
  let locked := decide (|detune_nm| ≤ p.lock_window_nm)
  ⟨resonance_nm, detune_nm, locked⟩

/-! ## Impairment model (thermalres.plant.impairment) -/

/-- Parameters of the link impairment model. -/
structure ImpairmentParams where
  detune_50_nm : ℚ
  detune_floor_nm : ℚ
  detune_ceil_nm : ℚ
deriving Repr, DecidableEq

/-- Outputs of the impairment model. -/
structure ImpairmentOutputs where
  crc_fail_prob : ℚ
deriving Repr, DecidableEq

/-- Clamp to the unit interval, as the Python max(0.0, min(1.0, t)). -/
def clamp01 (t : ℚ) : ℚ := max 0 (min 1 t)

/-- The piecewise-linear remapping of the impairment model that sends the
normalized 50-percent point x50 to one half: on input x it maps
the segment from 0 to x50 linearly onto 0 to 1/2, and the segment from
x50 to 1 linearly onto 1/2 to 1; when x50 is not strictly inside the
unit interval the input is left unchanged.  This mirrors the conditional
block computing x_norm in eval_impairment. -/
def impairment_remap (x50 : ℚ) (x : ℚ) : ℚ :=
  if 0 < x50 ∧ x50 < 1 then
    if x ≤ x50 then
      if 0 < x50 then (1 / 2) * (x / x50) else 0
    else
      if x50 < 1 then 1 / 2 + (1 / 2) * ((x - x50) / (1 - x50)) else 1
  else x

/-- Cubic smoothstep s t = t * t * (3 - 2 * t). -/
def smoothstep (t : ℚ) : ℚ := t * t * (3 - 2 * t)

/-- Evaluation of the impairment model, mirroring eval_impairment in
thermalres/plant/impairment.py: unlocked forces probability one; the
absolute detune below the floor gives zero and at or above the ceiling
gives one; otherwise the normalized coordinate is remapped so the
configured 50-percent point lands on one half, pushed through the cubic
smoothstep, and clamped to the unit interval. -/
def eval_impairment (detune_nm : ℚ) (locked : Bool) (p : ImpairmentParams) :
    ImpairmentOutputs :=
  if !locked then ⟨1⟩
  else
    let abs_detune := |detune_nm|
    if abs_detune ≤ p.detune_floor_nm then ⟨0⟩
    else if p.detune_ceil_nm ≤ abs_detune then ⟨1⟩
    else
      let x := (abs_detune - p.detune_floor_nm) /
        (p.detune_ceil_nm - p.detune_floor_nm)
      let x := clamp01 x
      let x50 := (p.detune_50_nm - p.detune_floor_nm) /
        (p.detune_ceil_nm - p.detune_floor_nm)
      let x50 := clamp01 x50
      let x_norm := impairment_remap x50 x
      ⟨clamp01 (smoothstep x_norm)⟩

/-! ## Plant chain (thermalres.plant.eval_plant_chain) -/

/-- Step the full plant chain: thermal step, then resonator, then
impairment, combining the outputs, mirroring eval_plant_chain. -/
def eval_plant_chain (thermal_state : ThermalState) (inputs : PlantInputs)
    (thermal_params : ThermalParams) (resonator_params : ResonatorParams)
    (impairment_params : ImpairmentParams) : ThermalState × PlantOutputs :=
  let new_thermal_state := step_thermal thermal_state inputs.dt_s
    inputs.heater_duty inputs.workload_frac thermal_params
  let r := eval_resonator new_thermal_state.temp_c resonator_params
  let i := eval_impairment r.detune_nm r.locked impairment_params
  (new_thermal_state,
    ⟨new_thermal_state.temp_c, r.resonance_nm, r.detune_nm, r.locked,
      i.crc_fail_prob⟩)

/-! ## Bang-bang controller (thermalres.control.bang_bang) -/

/-- Parameters of the bang-bang controller (defaults as in the source). -/
structure BangBangParams where
  detune_deadband_nm : ℚ := 1 / 10
  step_size : ℚ := 1 / 20
  min_duty : ℚ := 0
  max_duty : ℚ := 1
  unlock_boost : ℚ := 1 / 5
deriving Repr, DecidableEq

/-- One step of the bang-bang controller, mirroring
BangBangController.step: the persisted duty is the ambient mutable
state, passed and returned explicitly.  Returns the new persisted duty
together with the control outputs. -/
def BangBangController.step (p : BangBangParams) (current_duty : ℚ)
    (inputs : ControlInputs) : ℚ × ControlOutputs :=
  let error := inputs.detune_nm - inputs.detune_target_nm
  let d :=
    if !inputs.locked then current_duty + p.step_size + p.unlock_boost
    else if error < -p.detune_deadband_nm then current_duty + p.step_size
    else if p.detune_deadband_nm < error then current_duty - p.step_size
    else current_duty
  let d := max p.min_duty (min p.max_duty d)
  (d, ⟨d, error⟩)

/-- Initial and reset value of the persisted bang-bang duty. -/
def BangBangController.resetDuty : ℚ := 0

/-! ## Link monitor reference model (thermalres.digital.reference) -/

/-- Hysteresis thresholds of the link monitor (defaults as in RTL). -/
structure LinkMonitorParams where
  fails_to_down : Nat := 4
  passes_to_up : Nat := 8
deriving Repr, DecidableEq

/-- Link monitor internal state. -/
structure LinkMonitorState where
  link_up : Bool
  total_frames : Nat
  total_crc_fails : Nat
  consec_fails : Nat
  consec_passes : Nat
deriving Repr, DecidableEq

/-- Reset state of the link monitor: link up, all counters zero. -/
def LinkMonitorRef.resetState : LinkMonitorState := ⟨true, 0, 0, 0, 0⟩

/-- One cycle of the link monitor state machine, mirroring
LinkMonitorRef.step: an invalid frame changes nothing; a valid frame
bumps the frame counter and then takes the failure or pass path with
the corresponding streak update and hysteresis transition check. -/
def LinkMonitorRef.step (p : LinkMonitorParams) (s : LinkMonitorState)
    (valid : Bool) (crc_fail : Bool) : LinkMonitorState :=
  if !valid then s
  else
    let s := { s with total_frames := s.total_frames + 1 }
    if crc_fail then
      let s := { s with
        total_crc_fails := s.total_crc_fails + 1,
        consec_fails := s.consec_fails + 1,
        consec_passes := 0 }
      if s.link_up ∧ p.fails_to_down ≤ s.consec_fails then
        { s with link_up := false }
      else s
    else
      let s := { s with
        consec_passes := s.consec_passes + 1,
        consec_fails := 0 }
      if !s.link_up ∧ p.passes_to_up ≤ s.consec_passes then
        { s with link_up := true }
      else s

/-- Feed a whole sequence of frames, oldest first, to a link monitor
starting from the reset state. -/
def LinkMonitorRef.runSeq (p : LinkMonitorParams)
    (evs : List (Bool × Bool)) : LinkMonitorState :=
  evs.foldl (fun s e => LinkMonitorRef.step p s e.1 e.2)
    LinkMonitorRef.resetState

/-- Convert the current monitor state to a recorded sample, mirroring
to_link_state_sample. -/
def LinkMonitorRef.toSample (s : LinkMonitorState) (cycle : Nat) :
    LinkStateSample :=
  ⟨cycle, s.link_up, s.total_frames, s.total_crc_fails, s.consec_fails,
    s.consec_passes⟩

/-! ## Event sampler (thermalres.cosim.events)

The Python sampler owns a Mersenne-Twister generator seeded once at
construction.  It is embedded as an explicit deterministic generator: a
state type rho with a next function returning one uniform draw and the
successor state.  All kernel definitions and theorems are parametric in
this generator, which is exactly the interface the source relies on. -/

/-- Sample one CRC event, mirroring EventSampler.sample_crc_event: when
unlocked the failure is forced without consuming a draw; otherwise one
draw is consumed and compared against the probability.  Returns the
event together with the successor generator state. -/
def sample_crc_event {ρ : Type} (next : ρ → ℚ × ρ) (rng : ρ) (cycle : Nat)
    (chunk_idx : Nat) (crc_fail_prob : ℚ) (locked : Bool) : CrcEvent × ρ :=
  if !locked then (⟨cycle, chunk_idx, true, crc_fail_prob⟩, rng)
  else
    let u := next rng
    (⟨cycle, chunk_idx, decide (u.1 < crc_fail_prob), crc_fail_prob⟩, u.2)

/-! ## Simulation configuration (thermalres.config) -/

/-- Remove unsuitable characters from a directory name, mirroring
_clean_path_name: keep alphanumerics, dash and underscore, replace
everything else by an underscore, then strip leading and trailing
underscores. -/
def clean_path_name (path_name : String) : String :=
  let cleaned := path_name.toList.map
    (fun c => if c.isAlphanum ∨ c = '-' ∨ c = '_' then c else '_')
  let stripped :=
    ((cleaned.dropWhile (fun c => c = '_')).reverse.dropWhile
      (fun c => c = '_')).reverse
  String.mk stripped

/-- Validated simulation configuration. -/
structure SimConfig where
  name : String
  cycles : Int
  cycle_chunks : Int
  seed : Int
  out_dir : String
deriving Repr, DecidableEq

/-- Construction of a simulation configuration, mirroring
SimConfig.from_args.  The wall-clock timestamp used in the default
output directory is impure in the source and is passed here as the
explicit argument ts.  Raised ValueErrors become an error result. -/
def SimConfig.from_args (ts : String) (name : String) (cycles : Int)
    (cycle_chunks : Int) (seed : Int) (out_dir : Option String) :
    Except String SimConfig :=
  if name = "" then .error ("name must be a non-empty string")
  else if cycles < 0 then .error ("cycles must be >= 0")
  else if cycle_chunks ≤ 0 then .error ("cycle_chunks must be > 0")
  else
    let od := match out_dir with
      | some d => d
      | none =>
        let clean_name := clean_path_name name
        let clean_name := if clean_name = "" then "scenario" else clean_name
        "artifacts/runs/" ++ ts ++ "_" ++ clean_name
    .ok ⟨name, cycles, cycle_chunks, seed, od⟩

/-! ## Co-simulation kernel (thermalres.cosim.kernel)

The kernel is parametric in the controller state type sc (the source
accepts any object with reset and step methods) and in the generator
state type rho.  The static wiring lives in KSpec, the mutable fields of
the kernel object live in KState, and the accumulated run records live
in RunAcc.  The ctrlCalls field of RunAcc is ghost instrumentation
counting how often the controller step was invoked; it records, it does
not influence, the computation. -/

/-- A controller implementation: the reset method and the step method,
with explicit internal state of type sc. -/
structure CtrlImpl (sc : Type) where
  resetFn : sc → sc
  stepFn : sc → ControlInputs → sc × ControlOutputs

/-- Static kernel wiring: configuration values and optional components,
mirroring the arguments of CoSimKernel together with the validated
configuration fields the run loop reads. -/
structure KSpec (sc ρ : Type) where
  cycles : Nat
  cycle_chunks : Nat
  seed : Int
  plant : Option (ThermalParams × ResonatorParams × ImpairmentParams)
  schedule : Option (Nat → PlantInputs)
  controller : Option (CtrlImpl sc)
  detune_target_nm : ℚ
  hasLink : Bool
  linkParams : LinkMonitorParams
  rngNext : ρ → ℚ × ρ

/-- Mutable kernel state: the plant thermal state owned by the plant
runner, the controller internal state, the event sampler generator
state, the stored last plant outputs, and the link monitor state. -/
structure KState (sc ρ : Type) where
  thermal : ThermalState
  ctrl : sc
  rng : ρ
  last : Option PlantOutputs
  link : LinkMonitorState

/-- Accumulated run records: chunk summaries, time-series samples, CRC
events and link-state samples, plus the ghost controller-call counter. -/
structure RunAcc where
  chunks : List ChunkSummary
  timeseries : List TimeSeriesSample
  events : List CrcEvent
  link_states : List LinkStateSample
  ctrlCalls : Nat

/-- The empty accumulator at the start of a run. -/
def RunAcc.empty : RunAcc := ⟨[], [], [], [], 0⟩

/-- Resolve the inputs for the current chunk, mirroring the input
resolution block of CoSimKernel.run: closed-loop when a controller is
present and a previous plant output exists, otherwise open-loop from
the schedule, otherwise none (skip).  Returns the plant inputs, the
optional controller error, the controller-active flag and the successor
controller state. -/
def CoSimKernel.resolve {sc ρ : Type} (sp : KSpec sc ρ) (cur : Nat)
    (st : KState sc ρ) : Option (PlantInputs × Option ℚ × Bool × sc) :=
  match sp.controller, st.last with
  | some c, some lo =>
    let control_inputs : ControlInputs :=
      ⟨1 / 10, lo.temp_c, lo.detune_nm, lo.locked, lo.crc_fail_prob,
        sp.detune_target_nm⟩
    let r := c.stepFn st.ctrl control_inputs
    let wd : ℚ × ℚ := match sp.schedule with
      | some f => ((f cur).workload_frac, (f cur).dt_s)
      | none => (0, 1 / 10)
    some (⟨r.2.heater_duty, wd.1, wd.2⟩, some r.2.error, true, r.1)
  | _, _ =>
    match sp.schedule with
    | some f =>
      some (⟨(f cur).heater_duty, (f cur).workload_frac, (f cur).dt_s⟩,
        none, false, st.ctrl)
    | none => none

/-- Execute the plant, sampler, link and recording part of one chunk of
CoSimKernel.run, given the resolved inputs. -/
def CoSimKernel.stepChunk {sc ρ : Type} (sp : KSpec sc ρ)
    (pp : ThermalParams × ResonatorParams × ImpairmentParams)
    (cur idx : Nat) (st : KState sc ρ) (acc : RunAcc)
    (inputs : PlantInputs) (err : Option ℚ) (active : Bool) (ctrl1 : sc) :
    KState sc ρ × RunAcc :=
  let pr := eval_plant_chain st.thermal inputs pp.1 pp.2.1 pp.2.2
  let outputs := pr.2
  let ev := sample_crc_event sp.rngNext st.rng cur idx
    outputs.crc_fail_prob outputs.locked
  let acc := { acc with
    events := acc.events ++ [ev.1],
    ctrlCalls := acc.ctrlCalls + (if active then 1 else 0) }
  let la : LinkMonitorState × RunAcc :=
    if sp.hasLink then
      let ls := LinkMonitorRef.step sp.linkParams st.link true ev.1.crc_fail
      (ls, { acc with
        link_states := acc.link_states ++ [LinkMonitorRef.toSample ls cur] })
    else (st.link, acc)
  let sample : TimeSeriesSample :=
    ⟨cur, outputs.temp_c, outputs.detune_nm, outputs.locked,
      outputs.crc_fail_prob, inputs.heater_duty, inputs.workload_frac,
      err, active⟩
  let acc := { la.2 with timeseries := la.2.timeseries ++ [sample] }
  (⟨pr.1, ctrl1, ev.2, some outputs, la.1⟩, acc)

/-- The main loop of CoSimKernel.run, advancing in chunks while the
current cycle is below the configured total.  The fuel argument bounds
the number of iterations; since the validated chunk size is at least
one, a fuel of cycles always suffices. -/
def CoSimKernel.loop {sc ρ : Type} (sp : KSpec sc ρ) :
    Nat → Nat → Nat → KState sc ρ → RunAcc → KState sc ρ × RunAcc
  | 0, _, _, st, acc => (st, acc)
  | fuel + 1, cur, idx, st, acc =>
    if cur < sp.cycles then
      let nxt := min (cur + sp.cycle_chunks) sp.cycles
      let acc1 := { acc with chunks := acc.chunks ++ [⟨idx, cur, nxt⟩] }
      match sp.plant with
      | none => CoSimKernel.loop sp fuel nxt (idx + 1) st acc1
      | some pp =>
        match CoSimKernel.resolve sp cur st with
        | none => CoSimKernel.loop sp fuel nxt (idx + 1) st acc1
        | some (inputs, err, active, ctrl1) =>
          let r := CoSimKernel.stepChunk sp pp cur idx st acc1 inputs
            err active ctrl1
          CoSimKernel.loop sp fuel nxt (idx + 1) r.1 r.2
    else (st, acc)

/-- The reset phase at the top of CoSimKernel.run: reset the controller
and the link runner when present.  The generator state, the stored last
outputs and the plant thermal state are not touched. -/
def CoSimKernel.resetPhase {sc ρ : Type} (sp : KSpec sc ρ)
    (st : KState sc ρ) : KState sc ρ :=
  let st1 := match sp.controller with
    | some c => { st with ctrl := c.resetFn st.ctrl }
    | none => st
  if sp.hasLink then { st1 with link := LinkMonitorRef.resetState } else st1

/-- CoSimKernel.run: reset the stateful components, then loop from cycle
zero, returning the final kernel state and the accumulated records. -/
def CoSimKernel.run {sc ρ : Type} (sp : KSpec sc ρ) (st : KState sc ρ) :
    KState sc ρ × RunAcc :=
  CoSimKernel.loop sp sp.cycles 0 0 (CoSimKernel.resetPhase sp st)
    RunAcc.empty

/-- Kernel construction, mirroring CoSimKernel with a caller-supplied
plant runner and controller object: the event sampler is seeded exactly
once, here via the seeding function applied to the configured seed; the
stored last outputs start empty; the plant runner carries the initial
temperature; a fresh link runner starts in the reset state. -/
def CoSimKernel.mk {sc ρ : Type} (sp : KSpec sc ρ) (seedFn : Int → ρ)
    (initial_temp_c : ℚ) (ctrl0 : sc) : KState sc ρ :=
  ⟨⟨initial_temp_c⟩, ctrl0, seedFn sp.seed, none,
    LinkMonitorRef.resetState⟩

/-! ## Link monitor lemmas -/

/-- An invalid frame is a no-op for the link monitor. -/
theorem LinkMonitorRef.step_invalid (p : LinkMonitorParams)
    (s : LinkMonitorState) (f : Bool) :
    LinkMonitorRef.step p s false f = s := by
  simp [LinkMonitorRef.step]

/-- The frame counter never decreases across one step. -/
theorem LinkMonitorRef.step_frames_le (p : LinkMonitorParams)
    (s : LinkMonitorState) (v f : Bool) :
    s.total_frames ≤ (LinkMonitorRef.step p s v f).total_frames := by
  unfold LinkMonitorRef.step
  split
  · exact le_refl _
  · dsimp only
    split <;> split <;> simp <;> omega

/-- The failure counter never decreases across one step. -/
theorem LinkMonitorRef.step_fails_le (p : LinkMonitorParams)
    (s : LinkMonitorState) (v f : Bool) :
    s.total_crc_fails ≤ (LinkMonitorRef.step p s v f).total_crc_fails := by
  unfold LinkMonitorRef.step
  split
  · exact le_refl _
  · dsimp only
    split <;> split <;> simp <;> omega

/-- One step preserves the bound of failures by frames. -/
theorem LinkMonitorRef.step_fails_le_frames (p : LinkMonitorParams)
    (s : LinkMonitorState) (v f : Bool)
    (h : s.total_crc_fails ≤ s.total_frames) :
    (LinkMonitorRef.step p s v f).total_crc_fails ≤
      (LinkMonitorRef.step p s v f).total_frames := by
  unfold LinkMonitorRef.step
  split
  · exact h
  · dsimp only
    split <;> split <;> simp <;> omega

/-- Every state reached from reset keeps failures bounded by frames. -/
theorem LinkMonitorRef.runSeq_fails_le_frames (p : LinkMonitorParams)
    (evs : List (Bool × Bool)) :
    (LinkMonitorRef.runSeq p evs).total_crc_fails ≤
      (LinkMonitorRef.runSeq p evs).total_frames := by
  unfold LinkMonitorRef.runSeq
  have h : ∀ (l : List (Bool × Bool)) (s : LinkMonitorState),
      s.total_crc_fails ≤ s.total_frames →
      (l.foldl (fun s e => LinkMonitorRef.step p s e.1 e.2) s).total_crc_fails ≤
        (l.foldl (fun s e => LinkMonitorRef.step p s e.1 e.2) s).total_frames := by
    intro l
    induction l with
    | nil => intro s hs; exact hs
    | cons e t ih =>
      intro s hs
      exact ih _ (LinkMonitorRef.step_fails_le_frames p s e.1 e.2 hs)
  exact h evs _ (le_refl 0)

/-- C6: over every event sequence fed to the link monitor from reset,
the failure counter stays bounded by the frame counter after every
step, both running counters are non-decreasing from step to step, and
an invalid event changes nothing. -/
theorem linkMonitor_counter_monotonicity (p : LinkMonitorParams)
    (evs : List (Bool × Bool)) (v f g : Bool) :
    ((LinkMonitorRef.runSeq p evs).total_crc_fails ≤
       (LinkMonitorRef.runSeq p evs).total_frames) ∧
    ((LinkMonitorRef.runSeq p evs).total_frames ≤
       (LinkMonitorRef.step p (LinkMonitorRef.runSeq p evs) v f).total_frames) ∧
    ((LinkMonitorRef.runSeq p evs).total_crc_fails ≤
       (LinkMonitorRef.step p (LinkMonitorRef.runSeq p evs) v f).total_crc_fails) ∧
    (LinkMonitorRef.step p (LinkMonitorRef.runSeq p evs) false g =
       LinkMonitorRef.runSeq p evs) :=
  ⟨LinkMonitorRef.runSeq_fails_le_frames p evs,
   LinkMonitorRef.step_frames_le p _ v f,
   LinkMonitorRef.step_fails_le p _ v f,
   LinkMonitorRef.step_invalid p _ g⟩

/-- Hysteresis invariant: while the link is up the failing streak is
strictly below the down threshold, and while it is down the passing
streak is strictly below the up threshold. -/
def LinkMonitorRef.Inv (p : LinkMonitorParams) (s : LinkMonitorState) :
    Prop :=
  (s.link_up = true → s.consec_fails < p.fails_to_down) ∧
  (s.link_up = false → s.consec_passes < p.passes_to_up)

/-- The reset state satisfies the hysteresis invariant when both
thresholds are positive. -/
theorem LinkMonitorRef.inv_reset (p : LinkMonitorParams)
    (h1 : 0 < p.fails_to_down) (h2 : 0 < p.passes_to_up) :
    LinkMonitorRef.Inv p LinkMonitorRef.resetState := by
  constructor <;> intro _ <;> simpa [LinkMonitorRef.resetState]

/-- One step preserves the hysteresis invariant. -/
theorem LinkMonitorRef.inv_step (p : LinkMonitorParams)
    (s : LinkMonitorState) (v f : Bool)
    (h1 : 0 < p.fails_to_down) (h2 : 0 < p.passes_to_up)
    (h : LinkMonitorRef.Inv p s) :
    LinkMonitorRef.Inv p (LinkMonitorRef.step p s v f) := by
  obtain ⟨hu, hd⟩ := h
  unfold LinkMonitorRef.step
  split
  · exact ⟨hu, hd⟩
  · dsimp only
    split
    · split
      · constructor <;> intro hl <;> simp_all
      · rename_i hcond
        constructor <;> intro hl <;> simp_all <;> omega
    · split
      · constructor <;> intro hl <;> simp_all
      · rename_i hcond
        constructor <;> intro hl <;> simp_all <;> omega

/-- Every state reachable from reset satisfies the hysteresis
invariant, thresholds being positive. -/
theorem LinkMonitorRef.inv_runSeq (p : LinkMonitorParams)
    (evs : List (Bool × Bool))
    (h1 : 0 < p.fails_to_down) (h2 : 0 < p.passes_to_up) :
    LinkMonitorRef.Inv p (LinkMonitorRef.runSeq p evs) := by
  unfold LinkMonitorRef.runSeq
  have h : ∀ (l : List (Bool × Bool)) (s : LinkMonitorState),
      LinkMonitorRef.Inv p s →
      LinkMonitorRef.Inv p
        (l.foldl (fun s e => LinkMonitorRef.step p s e.1 e.2) s) := by
    intro l
    induction l with
    | nil => intro s hs; exact hs
    | cons e t ih =>
      intro s hs
      exact ih _ (LinkMonitorRef.inv_step p s e.1 e.2 h1 h2 hs)
  exact h evs _ (LinkMonitorRef.inv_reset p h1 h2)

/-- Characterization of link state flips in one step, for any state
satisfying the hysteresis invariant. -/
theorem LinkMonitorRef.step_flip_iff (p : LinkMonitorParams)
    (s : LinkMonitorState) (v f : Bool)
    (hinv : LinkMonitorRef.Inv p s) :
    ((s.link_up = true ∧ (LinkMonitorRef.step p s v f).link_up = false) ↔
      (v = true ∧ f = true ∧ s.link_up = true ∧
        (LinkMonitorRef.step p s v f).consec_fails = p.fails_to_down)) ∧
    ((s.link_up = false ∧ (LinkMonitorRef.step p s v f).link_up = true) ↔
      (v = true ∧ f = false ∧ s.link_up = false ∧
        (LinkMonitorRef.step p s v f).consec_passes = p.passes_to_up)) ∧
    ¬((s.link_up = true ∧ (LinkMonitorRef.step p s v f).link_up = false) ∧
      (s.link_up = false ∧ (LinkMonitorRef.step p s v f).link_up = true)) := by
  obtain ⟨hu, hd⟩ := hinv
  cases v with
  | false =>
    rw [LinkMonitorRef.step_invalid]
    cases hl : s.link_up <;> simp [hl]
  | true =>
    cases f <;> cases hl : s.link_up <;>
      (unfold LinkMonitorRef.step
       dsimp only
       simp only [hl, Bool.not_true, Bool.not_false, if_true, if_false,
         Bool.false_eq_true, Bool.true_eq_false] <;>
       split_ifs <;> simp_all <;> omega)

/-- C3: for every event sequence fed from reset, the link state flips
up to down only on a valid failing event that makes the failing streak
reach the configured down threshold while the state was up, flips down
to up only on a valid passing event that makes the passing streak reach
the up threshold while the state was down, never flips otherwise, and
never flips in both directions on one event. -/
theorem linkMonitor_flip_characterization (p : LinkMonitorParams)
    (evs : List (Bool × Bool)) (v f : Bool)
    (h1 : 0 < p.fails_to_down) (h2 : 0 < p.passes_to_up) :
    (((LinkMonitorRef.runSeq p evs).link_up = true ∧
        (LinkMonitorRef.step p (LinkMonitorRef.runSeq p evs) v f).link_up =
          false) ↔
      (v = true ∧ f = true ∧ (LinkMonitorRef.runSeq p evs).link_up = true ∧
        (LinkMonitorRef.step p (LinkMonitorRef.runSeq p evs) v
            f).consec_fails = p.fails_to_down)) ∧
    (((LinkMonitorRef.runSeq p evs).link_up = false ∧
        (LinkMonitorRef.step p (LinkMonitorRef.runSeq p evs) v f).link_up =
          true) ↔
      (v = true ∧ f = false ∧ (LinkMonitorRef.runSeq p evs).link_up = false ∧
        (LinkMonitorRef.step p (LinkMonitorRef.runSeq p evs) v
            f).consec_passes = p.passes_to_up)) ∧
    ¬(((LinkMonitorRef.runSeq p evs).link_up = true ∧
        (LinkMonitorRef.step p (LinkMonitorRef.runSeq p evs) v f).link_up =
          false) ∧
      ((LinkMonitorRef.runSeq p evs).link_up = false ∧
        (LinkMonitorRef.step p (LinkMonitorRef.runSeq p evs) v f).link_up =
          true)) :=
  LinkMonitorRef.step_flip_iff p (LinkMonitorRef.runSeq p evs) v f
    (LinkMonitorRef.inv_runSeq p evs h1 h2)

/-- Witness for C3 at the default thresholds, after three consecutive
failures, on a fourth valid failing event. -/
theorem linkMonitor_flip_characterization_witness :
    (0 < (4 : Nat) ∧ 0 < (8 : Nat)) ∧
    ((((LinkMonitorRef.runSeq ⟨4, 8⟩
          [(true, true), (true, true), (true, true)]).link_up = true ∧
        (LinkMonitorRef.step ⟨4, 8⟩
          (LinkMonitorRef.runSeq ⟨4, 8⟩
            [(true, true), (true, true), (true, true)]) true true).link_up =
          false) ↔
      (true = true ∧ true = true ∧
        (LinkMonitorRef.runSeq ⟨4, 8⟩
          [(true, true), (true, true), (true, true)]).link_up = true ∧
        (LinkMonitorRef.step ⟨4, 8⟩
          (LinkMonitorRef.runSeq ⟨4, 8⟩
            [(true, true), (true, true), (true, true)]) true
            true).consec_fails = (⟨4, 8⟩ : LinkMonitorParams).fails_to_down)) ∧
    (((LinkMonitorRef.runSeq ⟨4, 8⟩
          [(true, true), (true, true), (true, true)]).link_up = false ∧
        (LinkMonitorRef.step ⟨4, 8⟩
          (LinkMonitorRef.runSeq ⟨4, 8⟩
            [(true, true), (true, true), (true, true)]) true true).link_up =
          true) ↔
      (true = true ∧ true = false ∧
        (LinkMonitorRef.runSeq ⟨4, 8⟩
          [(true, true), (true, true), (true, true)]).link_up = false ∧
        (LinkMonitorRef.step ⟨4, 8⟩
          (LinkMonitorRef.runSeq ⟨4, 8⟩
            [(true, true), (true, true), (true, true)]) true
            true).consec_passes = (⟨4, 8⟩ : LinkMonitorParams).passes_to_up)) ∧
    ¬(((LinkMonitorRef.runSeq ⟨4, 8⟩
          [(true, true), (true, true), (true, true)]).link_up = true ∧
        (LinkMonitorRef.step ⟨4, 8⟩
          (LinkMonitorRef.runSeq ⟨4, 8⟩
            [(true, true), (true, true), (true, true)]) true true).link_up =
          false) ∧
      ((LinkMonitorRef.runSeq ⟨4, 8⟩
          [(true, true), (true, true), (true, true)]).link_up = false ∧
        (LinkMonitorRef.step ⟨4, 8⟩
          (LinkMonitorRef.runSeq ⟨4, 8⟩
            [(true, true), (true, true), (true, true)]) true true).link_up =
          true))) :=
  ⟨⟨by decide, by decide⟩,
    linkMonitor_flip_characterization ⟨4, 8⟩
      [(true, true), (true, true), (true, true)] true true
      (by decide) (by decide)⟩

/-! ## Bang-bang controller claims -/

/-- C7 counterexample: with the default parameters, a locked input whose
error is below the negative deadband increases the duty by the fixed
step only; the claimed increase of step size plus unlock boost does not
match the returned duty. -/
theorem bangbang_boost_counterexample :
    (BangBangController.step {} 0
        ⟨1 / 10, 25, -(1 / 5), true, 0, 0⟩).1 = 1 / 20 ∧
    max (BangBangParams.min_duty {})
        (min (BangBangParams.max_duty {})
          (0 + BangBangParams.step_size {} + BangBangParams.unlock_boost {})) =
      1 / 4 ∧
    (1 / 20 : ℚ) ≠ 1 / 4 := by
  refine ⟨?_, ?_, by norm_num⟩
  · norm_num [BangBangController.step]
  · norm_num

/-- C7 amended: the bang-bang step adds step size plus unlock boost only
when unlocked; when locked it adds the fixed step below the negative
deadband, subtracts it above the positive deadband, and otherwise holds;
the result is clamped between the configured minimum and maximum duty
before being returned, the reported error is detune minus target, and
the returned heater duty equals the new persisted duty. -/
theorem bangbang_step_characterization (p : BangBangParams) (duty : ℚ)
    (i : ControlInputs) :
    (BangBangController.step p duty i).1 =
      max p.min_duty (min p.max_duty
        (if i.locked = false then duty + p.step_size + p.unlock_boost
         else if i.detune_nm - i.detune_target_nm < -p.detune_deadband_nm then
           duty + p.step_size
         else if p.detune_deadband_nm < i.detune_nm - i.detune_target_nm then
           duty - p.step_size
         else duty)) ∧
    (BangBangController.step p duty i).2.error =
      i.detune_nm - i.detune_target_nm ∧
    (BangBangController.step p duty i).2.heater_duty =
      (BangBangController.step p duty i).1 ∧
    p.min_duty ≤ (BangBangController.step p duty i).1 ∧
    (BangBangController.step p duty i).1 ≤ max p.min_duty p.max_duty := by
  refine ⟨?_, rfl, rfl, le_max_left _ _, ?_⟩
  · cases hl : i.locked <;> simp [BangBangController.step, hl]
  · unfold BangBangController.step
    dsimp only
    exact max_le_max (le_refl _) (min_le_left _ _)

/-! ## Simulation configuration claim -/

/-- C9: constructing a simulation configuration succeeds exactly when
the name is non-empty, the cycle count is non-negative and the chunk
size is positive; otherwise an error is raised immediately at
construction. -/
theorem simconfig_from_args_ok_iff (ts name : String)
    (cycles cycle_chunks seed : Int) (out_dir : Option String) :
    (∃ c, SimConfig.from_args ts name cycles cycle_chunks seed out_dir =
        .ok c) ↔
      (name ≠ "" ∧ 0 ≤ cycles ∧ 0 < cycle_chunks) := by
  unfold SimConfig.from_args
  split_ifs with h1 h2 h3
  · simp [h1]
  · constructor
    · rintro ⟨c, hc⟩; cases hc
    · rintro ⟨-, hcy, -⟩; omega
  · constructor
    · rintro ⟨c, hc⟩; cases hc
    · rintro ⟨-, -, hch⟩; omega
  · constructor
    · intro _; exact ⟨h1, by omega, by omega⟩
    · intro _; exact ⟨_, rfl⟩

/-! ## Impairment lemmas -/

/-- The unit clamp is bounded below by zero. -/
theorem clamp01_nonneg (t : ℚ) : 0 ≤ clamp01 t := le_max_left _ _

/-- The unit clamp is bounded above by one. -/
theorem clamp01_le_one (t : ℚ) : clamp01 t ≤ 1 :=
  max_le (by norm_num) (min_le_left _ _)

/-- The unit clamp is monotone. -/
theorem clamp01_mono {a b : ℚ} (h : a ≤ b) : clamp01 a ≤ clamp01 b :=
  max_le_max (le_refl _) (min_le_min (le_refl _) h)

/-- The unit clamp fixes points of the unit interval. -/
theorem clamp01_eq_self {t : ℚ} (h0 : 0 ≤ t) (h1 : t ≤ 1) :
    clamp01 t = t := by
  unfold clamp01
  rw [min_eq_right h1, max_eq_right h0]

/-- The cubic smoothstep is monotone on the unit interval. -/
theorem smoothstep_mono {a b : ℚ} (h0 : 0 ≤ a) (hab : a ≤ b) (h1 : b ≤ 1) :
    smoothstep a ≤ smoothstep b := by
  unfold smoothstep
  nlinarith [mul_nonneg h0 (sub_nonneg.2 hab), mul_nonneg h0 h0,
    mul_nonneg (sub_nonneg.2 hab) (sub_nonneg.2 h1),
    mul_nonneg (mul_nonneg h0 (sub_nonneg.2 hab)) (sub_nonneg.2 h1)]

/-- The impairment remap is nonnegative on nonnegative inputs. -/
theorem impairment_remap_nonneg {x50 x : ℚ} (hx : 0 ≤ x) :
    0 ≤ impairment_remap x50 x := by
  unfold impairment_remap
  split_ifs with h hle hpos hlt
  · exact mul_nonneg (by norm_num) (div_nonneg hx (le_of_lt h.1))
  · exact le_refl 0
  · have hnum : 0 ≤ x - x50 := by linarith [lt_of_not_le hle]
    have hden : 0 ≤ 1 - x50 := by linarith [h.2]
    positivity
  · norm_num
  · exact hx

/-- The impairment remap is bounded by one on the unit interval. -/
theorem impairment_remap_le_one {x50 x : ℚ} (hx : x ≤ 1) :
    impairment_remap x50 x ≤ 1 := by
  unfold impairment_remap
  split_ifs with h hle hpos hlt
  · have : x / x50 ≤ 1 := (div_le_one h.1).2 hle
    linarith
  · norm_num
  · have hden : 0 < 1 - x50 := by linarith [h.2]
    have : (x - x50) / (1 - x50) ≤ 1 := (div_le_one hden).2 (by linarith)
    linarith
  · exact le_refl 1
  · exact hx

/-- The impairment remap is monotone. -/
theorem impairment_remap_mono {x50 a b : ℚ} (hab : a ≤ b) :
    impairment_remap x50 a ≤ impairment_remap x50 b := by
  unfold impairment_remap
  by_cases h : 0 < x50 ∧ x50 < 1
  · obtain ⟨h1, h2⟩ := h
    simp only [if_pos (And.intro h1 h2), if_pos h1, if_pos h2]
    by_cases ha : a ≤ x50 <;> by_cases hb : b ≤ x50
    · rw [if_pos ha, if_pos hb]
      exact mul_le_mul_of_nonneg_left
        ((div_le_div_iff_of_pos_right h1).2 hab) (by norm_num)
    · rw [if_pos ha, if_neg hb]
      have haone : a / x50 ≤ 1 := (div_le_one h1).2 ha
      have hnum : 0 ≤ b - x50 := by linarith [lt_of_not_le hb]
      have hden : 0 ≤ 1 - x50 := by linarith
      have hfrac : 0 ≤ (b - x50) / (1 - x50) := by positivity
      linarith
    · exact absurd (le_trans hab hb) ha
    · rw [if_neg ha, if_neg hb]
      have hden : 0 < 1 - x50 := by linarith
      have : (a - x50) / (1 - x50) ≤ (b - x50) / (1 - x50) :=
        (div_le_div_iff_of_pos_right hden).2 (by linarith)
      linarith
  · rw [if_neg h, if_neg h]
    exact hab

/-- The impairment probability always lies in the unit interval. -/
theorem eval_impairment_mem (d : ℚ) (l : Bool) (p : ImpairmentParams) :
    0 ≤ (eval_impairment d l p).crc_fail_prob ∧
      (eval_impairment d l p).crc_fail_prob ≤ 1 := by
  unfold eval_impairment
  split
  · exact ⟨by norm_num, le_refl 1⟩
  · dsimp only
    split
    · exact ⟨le_refl 0, by norm_num⟩
    · split
      · exact ⟨by norm_num, le_refl 1⟩
      · exact ⟨clamp01_nonneg _, clamp01_le_one _⟩

/-- Locked impairment evaluation written as a single branch on the
absolute detune. -/
theorem eval_impairment_locked_eq (d : ℚ) (p : ImpairmentParams) :
    eval_impairment d true p =
      (if |d| ≤ p.detune_floor_nm then ⟨0⟩
       else if p.detune_ceil_nm ≤ |d| then ⟨1⟩
       else ⟨clamp01 (smoothstep (impairment_remap
         (clamp01 ((p.detune_50_nm - p.detune_floor_nm) /
           (p.detune_ceil_nm - p.detune_floor_nm)))
         (clamp01 ((|d| - p.detune_floor_nm) /
           (p.detune_ceil_nm - p.detune_floor_nm)))))⟩) := by
  simp [eval_impairment]

/-- The locked impairment probability is monotone in the absolute
detune. -/
theorem eval_impairment_mono (p : ImpairmentParams)
    (hfc : p.detune_floor_nm < p.detune_ceil_nm) {d1 d2 : ℚ}
    (hd : |d1| ≤ |d2|) :
    (eval_impairment d1 true p).crc_fail_prob ≤
      (eval_impairment d2 true p).crc_fail_prob := by
  rw [eval_impairment_locked_eq, eval_impairment_locked_eq]
  by_cases hbf : |d2| ≤ p.detune_floor_nm
  · rw [if_pos (le_trans hd hbf), if_pos hbf]
  · rw [if_neg hbf]
    by_cases hbc : p.detune_ceil_nm ≤ |d2|
    · rw [if_pos hbc]
      split_ifs <;> dsimp only <;>
        first
          | exact clamp01_le_one _
          | norm_num
    · rw [if_neg hbc]
      by_cases haf : |d1| ≤ p.detune_floor_nm
      · rw [if_pos haf]
        exact clamp01_nonneg _
      · have hac : ¬p.detune_ceil_nm ≤ |d1| := by
          intro hc
          exact hbc (le_trans hc hd)
        rw [if_neg haf, if_neg hac]
        have hD : 0 < p.detune_ceil_nm - p.detune_floor_nm := sub_pos.2 hfc
        have hxab : (|d1| - p.detune_floor_nm) /
            (p.detune_ceil_nm - p.detune_floor_nm) ≤
            (|d2| - p.detune_floor_nm) /
            (p.detune_ceil_nm - p.detune_floor_nm) :=
          (div_le_div_iff_of_pos_right hD).2 (by linarith)
        have h1 := clamp01_mono hxab
        have h2 := @impairment_remap_mono
          (clamp01 ((p.detune_50_nm - p.detune_floor_nm) /
            (p.detune_ceil_nm - p.detune_floor_nm))) _ _ h1
        have h0r := @impairment_remap_nonneg
          (clamp01 ((p.detune_50_nm - p.detune_floor_nm) /
            (p.detune_ceil_nm - p.detune_floor_nm))) _
          (clamp01_nonneg ((|d1| - p.detune_floor_nm) /
            (p.detune_ceil_nm - p.detune_floor_nm)))
        have h1r := @impairment_remap_le_one
          (clamp01 ((p.detune_50_nm - p.detune_floor_nm) /
            (p.detune_ceil_nm - p.detune_floor_nm))) _
          (clamp01_le_one ((|d2| - p.detune_floor_nm) /
            (p.detune_ceil_nm - p.detune_floor_nm)))
        exact clamp01_mono (smoothstep_mono h0r h2 h1r)

/-- C4: for parameters with floor strictly below ceiling, every locked
impairment evaluation returns a probability in the unit interval, the
probability is symmetric under sign flip of the detune, and it is
monotone non-decreasing in the absolute detune. -/
theorem impairment_guarantees (p : ImpairmentParams) (d d1 d2 : ℚ)
    (hfc : p.detune_floor_nm < p.detune_ceil_nm) (hdd : |d1| ≤ |d2|) :
    (0 ≤ (eval_impairment d true p).crc_fail_prob ∧
      (eval_impairment d true p).crc_fail_prob ≤ 1) ∧
    eval_impairment (-d) true p = eval_impairment d true p ∧
    (eval_impairment d1 true p).crc_fail_prob ≤
      (eval_impairment d2 true p).crc_fail_prob :=
  ⟨eval_impairment_mem d true p, by simp [eval_impairment, abs_neg],
    eval_impairment_mono p hfc hdd⟩

/-- Witness for C4 at concrete parameters and detunes. -/
theorem impairment_guarantees_witness :
    ((⟨3 / 10, 0, 1⟩ : ImpairmentParams).detune_floor_nm <
        (⟨3 / 10, 0, 1⟩ : ImpairmentParams).detune_ceil_nm ∧
      |(1 / 4 : ℚ)| ≤ |(1 / 2 : ℚ)|) ∧
    ((0 ≤ (eval_impairment 2 true ⟨3 / 10, 0, 1⟩).crc_fail_prob ∧
      (eval_impairment 2 true ⟨3 / 10, 0, 1⟩).crc_fail_prob ≤ 1) ∧
    eval_impairment (-2) true ⟨3 / 10, 0, 1⟩ =
      eval_impairment 2 true ⟨3 / 10, 0, 1⟩ ∧
    (eval_impairment (1 / 4) true ⟨3 / 10, 0, 1⟩).crc_fail_prob ≤
      (eval_impairment (1 / 2) true ⟨3 / 10, 0, 1⟩).crc_fail_prob) :=
  ⟨⟨by norm_num, by rw [abs_of_pos (by norm_num : (0:ℚ) < 1 / 4),
        abs_of_pos (by norm_num : (0:ℚ) < 1 / 2)]; norm_num⟩,
    impairment_guarantees ⟨3 / 10, 0, 1⟩ 2 (1 / 4) (1 / 2) (by norm_num)
      (by rw [abs_of_pos (by norm_num : (0:ℚ) < 1 / 4),
        abs_of_pos (by norm_num : (0:ℚ) < 1 / 2)]; norm_num)⟩

/-- C8: with floor strictly below the 50-percent point strictly below
the ceiling, a locked evaluation at detune magnitude exactly the
configured 50-percent point returns a probability of exactly one half. -/
theorem impairment_fifty_point (p : ImpairmentParams) (d : ℚ)
    (h1 : p.detune_floor_nm < p.detune_50_nm)
    (h2 : p.detune_50_nm < p.detune_ceil_nm)
    (hd : |d| = p.detune_50_nm) :
    (eval_impairment d true p).crc_fail_prob = 1 / 2 := by
  rw [eval_impairment_locked_eq, hd]
  have hD : 0 < p.detune_ceil_nm - p.detune_floor_nm := by linarith
  have hxpos : 0 < (p.detune_50_nm - p.detune_floor_nm) /
      (p.detune_ceil_nm - p.detune_floor_nm) := div_pos (by linarith) hD
  have hxlt1 : (p.detune_50_nm - p.detune_floor_nm) /
      (p.detune_ceil_nm - p.detune_floor_nm) < 1 :=
    (div_lt_one hD).2 (by linarith)
  rw [if_neg (not_le.2 h1), if_neg (not_le.2 h2)]
  dsimp only
  rw [clamp01_eq_self (le_of_lt hxpos) (le_of_lt hxlt1)]
  unfold impairment_remap
  rw [if_pos (And.intro hxpos hxlt1), if_pos (le_refl _), if_pos hxpos,
    div_self (ne_of_gt hxpos)]
  norm_num [smoothstep, clamp01]

/-- Witness for C8 at concrete parameters. -/
theorem impairment_fifty_point_witness :
    ((⟨3 / 10, 0, 1⟩ : ImpairmentParams).detune_floor_nm <
        (⟨3 / 10, 0, 1⟩ : ImpairmentParams).detune_50_nm ∧
      (⟨3 / 10, 0, 1⟩ : ImpairmentParams).detune_50_nm <
        (⟨3 / 10, 0, 1⟩ : ImpairmentParams).detune_ceil_nm ∧
      |(3 / 10 : ℚ)| = (⟨3 / 10, 0, 1⟩ : ImpairmentParams).detune_50_nm) ∧
    (eval_impairment (3 / 10) true ⟨3 / 10, 0, 1⟩).crc_fail_prob = 1 / 2 :=
  ⟨⟨by norm_num, by norm_num,
      by rw [abs_of_pos (by norm_num : (0:ℚ) < 3 / 10)]⟩,
    impairment_fifty_point ⟨3 / 10, 0, 1⟩ (3 / 10) (by norm_num)
      (by norm_num) (by rw [abs_of_pos (by norm_num : (0:ℚ) < 3 / 10)])⟩

/-! ## Thermal claims -/

/-- Repeated zero-power thermal steps: heater duty and workload fraction
both zero, a fixed timestep, iterated n times. -/
def iterate_thermal (p : ThermalParams) (dt_s : ℚ) (s : ThermalState) :
    Nat → ThermalState
  | 0 => s
  | n + 1 => step_thermal (iterate_thermal p dt_s s n) dt_s 0 0 p

/-- Affine form of the zero-power thermal step: the offset from ambient
is scaled by one minus dt over RC. -/
theorem step_thermal_zero_affine (p : ThermalParams) (s : ThermalState)
    (dt_s : ℚ) (hR : p.r_th_c_per_w ≠ 0) (hC : p.c_th_j_per_c ≠ 0) :
    (step_thermal s dt_s 0 0 p).temp_c - p.ambient_c =
      (1 - dt_s / (p.r_th_c_per_w * p.c_th_j_per_c)) *
        (s.temp_c - p.ambient_c) := by
  simp only [step_thermal]
  norm_num
  field_simp
  ring

/-- Closed form of the zero-power iteration: a geometric decay of the
offset from ambient. -/
theorem iterate_thermal_closed (p : ThermalParams) (s : ThermalState)
    (dt_s : ℚ) (hR : p.r_th_c_per_w ≠ 0) (hC : p.c_th_j_per_c ≠ 0)
    (n : Nat) :
    (iterate_thermal p dt_s s n).temp_c - p.ambient_c =
      (1 - dt_s / (p.r_th_c_per_w * p.c_th_j_per_c)) ^ n *
        (s.temp_c - p.ambient_c) := by
  induction n with
  | zero => simp [iterate_thermal]
  | succ n ih =>
    rw [iterate_thermal, step_thermal_zero_affine p _ dt_s hR hC, ih,
      pow_succ]
    ring

/-- C5 amended: with positive thermal resistance, capacitance and
timestep, a zero-power step from a temperature strictly above ambient
strictly decreases it; and when additionally the forward-Euler
stability bound dt < 2 R C holds, the zero-power iteration approaches
ambient asymptotically. -/
theorem thermal_zero_power_convergence (p : ThermalParams) (dt_s T0 : ℚ)
    (hR : 0 < p.r_th_c_per_w) (hC : 0 < p.c_th_j_per_c) (hdt : 0 < dt_s)
    (hT0 : p.ambient_c < T0) :
    (step_thermal ⟨T0⟩ dt_s 0 0 p).temp_c < T0 ∧
    (dt_s < 2 * (p.r_th_c_per_w * p.c_th_j_per_c) →
      ∀ ε : ℚ, 0 < ε → ∃ N : Nat, ∀ n, N ≤ n →
        |(iterate_thermal p dt_s ⟨T0⟩ n).temp_c - p.ambient_c| < ε) := by
  have hRC : 0 < p.r_th_c_per_w * p.c_th_j_per_c := mul_pos hR hC
  have hk : 0 < dt_s / (p.r_th_c_per_w * p.c_th_j_per_c) := div_pos hdt hRC
  constructor
  · have haff := step_thermal_zero_affine p ⟨T0⟩ dt_s (ne_of_gt hR)
      (ne_of_gt hC)
    dsimp only at haff
    nlinarith [mul_pos hk (sub_pos.2 hT0)]
  · intro hstab ε hε
    have hk2 : dt_s / (p.r_th_c_per_w * p.c_th_j_per_c) < 2 :=
      (div_lt_iff hRC).2 (by linarith)
    have hq0 : (0 : ℚ) ≤ |1 - dt_s / (p.r_th_c_per_w * p.c_th_j_per_c)| :=
      abs_nonneg _
    have hq1 : |1 - dt_s / (p.r_th_c_per_w * p.c_th_j_per_c)| < 1 := by
      rw [abs_lt]
      constructor <;> linarith
    have hM : 0 < T0 - p.ambient_c := sub_pos.2 hT0
    obtain ⟨N, hN⟩ := exists_pow_lt_of_lt_one (div_pos hε hM) hq1
    refine ⟨N, fun n hn => ?_⟩
    have hcl := iterate_thermal_closed p ⟨T0⟩ dt_s (ne_of_gt hR)
      (ne_of_gt hC) n
    dsimp only at hcl
    rw [hcl, abs_mul, abs_pow, abs_of_pos hM]
    calc |1 - dt_s / (p.r_th_c_per_w * p.c_th_j_per_c)| ^ n *
          (T0 - p.ambient_c) ≤
        |1 - dt_s / (p.r_th_c_per_w * p.c_th_j_per_c)| ^ N *
          (T0 - p.ambient_c) :=
          mul_le_mul_of_nonneg_right
            (pow_le_pow_of_le_one hq0 (le_of_lt hq1) hn) (le_of_lt hM)
      _ < (ε / (T0 - p.ambient_c)) * (T0 - p.ambient_c) :=
          mul_lt_mul_of_pos_right hN hM
      _ = ε := div_mul_cancel₀ ε (ne_of_gt hM)

/-- Witness for C5 at concrete parameters, unit timestep. -/
theorem thermal_zero_power_convergence_witness :
    (0 < (⟨0, 1, 1, 1, 1⟩ : ThermalParams).r_th_c_per_w ∧
      0 < (⟨0, 1, 1, 1, 1⟩ : ThermalParams).c_th_j_per_c ∧
      0 < (1 : ℚ) ∧
      (⟨0, 1, 1, 1, 1⟩ : ThermalParams).ambient_c < 1) ∧
    ((step_thermal ⟨1⟩ 1 0 0 ⟨0, 1, 1, 1, 1⟩).temp_c < 1 ∧
    ((1 : ℚ) < 2 * ((⟨0, 1, 1, 1, 1⟩ : ThermalParams).r_th_c_per_w *
        (⟨0, 1, 1, 1, 1⟩ : ThermalParams).c_th_j_per_c) →
      ∀ ε : ℚ, 0 < ε → ∃ N : Nat, ∀ n, N ≤ n →
        |(iterate_thermal ⟨0, 1, 1, 1, 1⟩ 1 ⟨1⟩ n).temp_c -
          (⟨0, 1, 1, 1, 1⟩ : ThermalParams).ambient_c| < ε)) :=
  ⟨⟨by norm_num, by norm_num, by norm_num, by norm_num⟩,
    thermal_zero_power_convergence ⟨0, 1, 1, 1, 1⟩ 1 1 (by norm_num)
      (by norm_num) (by norm_num) (by norm_num)⟩

/-- Concrete parameters for the C5 counterexample: ambient zero, unit
resistance and capacitance. -/
def thermalCounterParams : ThermalParams := ⟨0, 1, 1, 1, 1⟩

/-- With timestep two (equal to twice RC), the zero-power iteration from
temperature one oscillates with constant amplitude. -/
theorem iterate_thermal_counter_closed (n : Nat) :
    (iterate_thermal thermalCounterParams 2 ⟨1⟩ n).temp_c = (-1 : ℚ) ^ n := by
  induction n with
  | zero => simp [iterate_thermal]
  | succ n ih =>
    have haff := step_thermal_zero_affine thermalCounterParams
      (iterate_thermal thermalCounterParams 2 ⟨1⟩ n) 2
      (by norm_num [thermalCounterParams]) (by norm_num [thermalCounterParams])
    rw [iterate_thermal]
    simp only [thermalCounterParams] at ih ⊢
    norm_num [thermalCounterParams] at haff
    rw [haff, ih, pow_succ]
    ring

/-- C5 counterexample: with zero input power, initial temperature one
strictly above the zero ambient, and timestep two, the iterated
temperature never approaches ambient: it stays at distance one forever.
This refutes the unconditional asymptotic-approach reading of the
claim. -/
theorem thermal_convergence_counterexample :
    thermalCounterParams.ambient_c < 1 ∧
    ¬(∀ ε : ℚ, 0 < ε → ∃ N : Nat, ∀ n, N ≤ n →
      |(iterate_thermal thermalCounterParams 2 ⟨1⟩ n).temp_c -
        thermalCounterParams.ambient_c| < ε) := by
  constructor
  · norm_num [thermalCounterParams]
  · intro h
    obtain ⟨N, hN⟩ := h 1 (by norm_num)
    have h2 := hN (2 * N) (by omega)
    rw [iterate_thermal_counter_closed, pow_mul] at h2
    norm_num [thermalCounterParams] at h2

/-! ## Kernel loop bookkeeping -/

/-- One executed chunk appends exactly one CRC event. -/
theorem CoSimKernel.stepChunk_events_length {sc ρ : Type} (sp : KSpec sc ρ)
    (pp : ThermalParams × ResonatorParams × ImpairmentParams)
    (cur idx : Nat) (st : KState sc ρ) (acc : RunAcc)
    (inputs : PlantInputs) (err : Option ℚ) (active : Bool) (ctrl1 : sc) :
    (CoSimKernel.stepChunk sp pp cur idx st acc inputs err active
        ctrl1).2.events.length = acc.events.length + 1 := by
  unfold CoSimKernel.stepChunk
  dsimp only
  split <;> simp

/-- One executed chunk leaves the chunk summaries unchanged (they are
appended by the loop before the chunk body runs). -/
theorem CoSimKernel.stepChunk_chunks {sc ρ : Type} (sp : KSpec sc ρ)
    (pp : ThermalParams × ResonatorParams × ImpairmentParams)
    (cur idx : Nat) (st : KState sc ρ) (acc : RunAcc)
    (inputs : PlantInputs) (err : Option ℚ) (active : Bool) (ctrl1 : sc) :
    (CoSimKernel.stepChunk sp pp cur idx st acc inputs err active
        ctrl1).2.chunks = acc.chunks := by
  unfold CoSimKernel.stepChunk
  dsimp only
  split <;> simp

/-- One executed chunk bumps the ghost controller-call counter exactly
when the chunk ran closed-loop. -/
theorem CoSimKernel.stepChunk_ctrlCalls {sc ρ : Type} (sp : KSpec sc ρ)
    (pp : ThermalParams × ResonatorParams × ImpairmentParams)
    (cur idx : Nat) (st : KState sc ρ) (acc : RunAcc)
    (inputs : PlantInputs) (err : Option ℚ) (active : Bool) (ctrl1 : sc) :
    (CoSimKernel.stepChunk sp pp cur idx st acc inputs err active
        ctrl1).2.ctrlCalls = acc.ctrlCalls + (if active then 1 else 0) := by
  unfold CoSimKernel.stepChunk
  dsimp only
  split <;> simp

/-- After an executed chunk the stored last outputs are present. -/
theorem CoSimKernel.stepChunk_last_isSome {sc ρ : Type} (sp : KSpec sc ρ)
    (pp : ThermalParams × ResonatorParams × ImpairmentParams)
    (cur idx : Nat) (st : KState sc ρ) (acc : RunAcc)
    (inputs : PlantInputs) (err : Option ℚ) (active : Bool) (ctrl1 : sc) :
    (CoSimKernel.stepChunk sp pp cur idx st acc inputs err active
        ctrl1).1.last.isSome = true := by
  unfold CoSimKernel.stepChunk
  dsimp only
  rfl

/-- With a schedule configured, input resolution always produces a
result. -/
theorem CoSimKernel.resolve_some {sc ρ : Type} (sp : KSpec sc ρ)
    (f : Nat → PlantInputs) (cur : Nat) (st : KState sc ρ)
    (hs : sp.schedule = some f) :
    ∃ i e a c, CoSimKernel.resolve sp cur st = some (i, e, a, c) := by
  unfold CoSimKernel.resolve
  cases hc : sp.controller <;> cases hl : st.last <;>
    simp [hs]

/-- With a controller configured and last outputs present, input
resolution runs the controller (active flag set). -/
theorem CoSimKernel.resolve_closed {sc ρ : Type} (sp : KSpec sc ρ)
    (cimpl : CtrlImpl sc) (lo : PlantOutputs) (cur : Nat)
    (st : KState sc ρ) (hc : sp.controller = some cimpl)
    (hl : st.last = some lo) :
    ∃ i e c, CoSimKernel.resolve sp cur st = some (i, e, true, c) := by
  unfold CoSimKernel.resolve
  rw [hc, hl]
  exact ⟨_, _, _, rfl⟩

/-- With a schedule configured but no last outputs, input resolution is
open-loop: inactive and the controller state untouched. -/
theorem CoSimKernel.resolve_open {sc ρ : Type} (sp : KSpec sc ρ)
    (f : Nat → PlantInputs) (cur : Nat) (st : KState sc ρ)
    (hs : sp.schedule = some f) (hl : st.last = none) :
    CoSimKernel.resolve sp cur st =
      some (⟨(f cur).heater_duty, (f cur).workload_frac, (f cur).dt_s⟩,
        none, false, st.ctrl) := by
  unfold CoSimKernel.resolve
  cases hc : sp.controller <;> rw [hl] <;> simp [hs]

/-- With a plant and a schedule configured, the loop appends CRC events
and chunk summaries in lockstep: one event per chunk. -/
theorem CoSimKernel.loop_events_chunks {sc ρ : Type} (sp : KSpec sc ρ)
    (pp : ThermalParams × ResonatorParams × ImpairmentParams)
    (f : Nat → PlantInputs) (hp : sp.plant = some pp)
    (hs : sp.schedule = some f) :
    ∀ (fuel cur idx : Nat) (st : KState sc ρ) (acc : RunAcc),
      (CoSimKernel.loop sp fuel cur idx st acc).2.events.length +
        acc.chunks.length =
      (CoSimKernel.loop sp fuel cur idx st acc).2.chunks.length +
        acc.events.length := by
  intro fuel
  induction fuel with
  | zero =>
    intro cur idx st acc
    simp only [CoSimKernel.loop]
    omega
  | succ fuel ih =>
    intro cur idx st acc
    simp only [CoSimKernel.loop]
    split
    · rw [hp]
      obtain ⟨i, e, a, c, hres⟩ := CoSimKernel.resolve_some sp f cur st hs
      rw [hres]
      dsimp only
      have hkey := ih (min (cur + sp.cycle_chunks) sp.cycles) (idx + 1)
        (CoSimKernel.stepChunk sp pp cur idx st
          { acc with chunks := acc.chunks ++
            [⟨idx, cur, min (cur + sp.cycle_chunks) sp.cycles⟩] } i e a c).1
        (CoSimKernel.stepChunk sp pp cur idx st
          { acc with chunks := acc.chunks ++
            [⟨idx, cur, min (cur + sp.cycle_chunks) sp.cycles⟩] } i e a c).2
      rw [CoSimKernel.stepChunk_events_length,
        CoSimKernel.stepChunk_chunks] at hkey
      simp only [List.length_append, List.length_cons, List.length_nil]
        at hkey
      omega
    · dsimp only
      omega

/-- With plant, schedule and controller configured and last outputs
already present, every executed chunk is closed-loop: the ghost call
counter and the chunk count advance in lockstep. -/
theorem CoSimKernel.loop_ctrlCalls_closed {sc ρ : Type} (sp : KSpec sc ρ)
    (pp : ThermalParams × ResonatorParams × ImpairmentParams)
    (f : Nat → PlantInputs) (cimpl : CtrlImpl sc)
    (hp : sp.plant = some pp) (hs : sp.schedule = some f)
    (hc : sp.controller = some cimpl) :
    ∀ (fuel cur idx : Nat) (st : KState sc ρ) (acc : RunAcc),
      st.last.isSome = true →
      (CoSimKernel.loop sp fuel cur idx st acc).2.ctrlCalls +
        acc.chunks.length =
      (CoSimKernel.loop sp fuel cur idx st acc).2.chunks.length +
        acc.ctrlCalls := by
  intro fuel
  induction fuel with
  | zero =>
    intro cur idx st acc _
    simp only [CoSimKernel.loop]
    omega
  | succ fuel ih =>
    intro cur idx st acc hlast
    simp only [CoSimKernel.loop]
    split
    · rw [hp]
      obtain ⟨lo, hlo⟩ := Option.isSome_iff_exists.1 hlast
      obtain ⟨i, e, c, hres⟩ := CoSimKernel.resolve_closed sp cimpl lo cur
        st hc hlo
      rw [hres]
      dsimp only
      have hkey := ih (min (cur + sp.cycle_chunks) sp.cycles) (idx + 1)
        (CoSimKernel.stepChunk sp pp cur idx st
          { acc with chunks := acc.chunks ++
            [⟨idx, cur, min (cur + sp.cycle_chunks) sp.cycles⟩] } i e true
            c).1
        (CoSimKernel.stepChunk sp pp cur idx st
          { acc with chunks := acc.chunks ++
            [⟨idx, cur, min (cur + sp.cycle_chunks) sp.cycles⟩] } i e true
            c).2
        (CoSimKernel.stepChunk_last_isSome sp pp cur idx st _ i e true c)
      rw [CoSimKernel.stepChunk_ctrlCalls, CoSimKernel.stepChunk_chunks]
        at hkey
      simp only [List.length_append, List.length_cons, List.length_nil,
        if_pos] at hkey
      omega
    · dsimp only
      omega

/-- With plant, schedule and controller configured but no stored last
outputs yet, the first executed chunk is open-loop and every later one
is closed-loop: the controller is invoked once per chunk except the
first. -/
theorem CoSimKernel.loop_ctrlCalls_from_none {sc ρ : Type}
    (sp : KSpec sc ρ)
    (pp : ThermalParams × ResonatorParams × ImpairmentParams)
    (f : Nat → PlantInputs) (cimpl : CtrlImpl sc)
    (hp : sp.plant = some pp) (hs : sp.schedule = some f)
    (hc : sp.controller = some cimpl)
    (fuel cur idx : Nat) (st : KState sc ρ) (acc : RunAcc)
    (hlast : st.last = none) (hcur : cur < sp.cycles) :
    (CoSimKernel.loop sp (fuel + 1) cur idx st acc).2.ctrlCalls +
      acc.chunks.length + 1 =
    (CoSimKernel.loop sp (fuel + 1) cur idx st acc).2.chunks.length +
      acc.ctrlCalls := by
  simp only [CoSimKernel.loop]
  rw [if_pos hcur, hp, CoSimKernel.resolve_open sp f cur st hs hlast]
  dsimp only
  have hkey := CoSimKernel.loop_ctrlCalls_closed sp pp f cimpl hp hs hc
    fuel (min (cur + sp.cycle_chunks) sp.cycles) (idx + 1)
    (CoSimKernel.stepChunk sp pp cur idx st
      { acc with chunks := acc.chunks ++
        [⟨idx, cur, min (cur + sp.cycle_chunks) sp.cycles⟩] }
      ⟨(f cur).heater_duty, (f cur).workload_frac, (f cur).dt_s⟩ none false
      st.ctrl).1
    (CoSimKernel.stepChunk sp pp cur idx st
      { acc with chunks := acc.chunks ++
        [⟨idx, cur, min (cur + sp.cycle_chunks) sp.cycles⟩] }
      ⟨(f cur).heater_duty, (f cur).workload_frac, (f cur).dt_s⟩ none false
      st.ctrl).2
    (CoSimKernel.stepChunk_last_isSome sp pp cur idx st _ _ none false
      st.ctrl)
  rw [CoSimKernel.stepChunk_ctrlCalls, CoSimKernel.stepChunk_chunks] at hkey
  simp only [List.length_append, List.length_cons, List.length_nil,
    if_neg Bool.false_ne_true] at hkey
  omega

/-- Ceiling-division recurrence for one chunk advance. -/
theorem chunk_div_step (cycles s cur : Nat) (hs : 0 < s)
    (h : cur < cycles) :
    (cycles - cur + s - 1) / s =
      (cycles - min (cur + s) cycles + s - 1) / s + 1 := by
  rcases le_or_lt (cur + s) cycles with hle | hlt
  · rw [min_eq_left hle]
    have e1 : cycles - cur + s - 1 = (cycles - (cur + s) + s - 1) + s := by
      omega
    rw [e1, Nat.add_div_right _ hs]
  · rw [min_eq_right (le_of_lt hlt)]
    have e1 : cycles - cur + s - 1 = (cycles - cur - 1) + s := by omega
    rw [e1, Nat.add_div_right _ hs, Nat.sub_self,
      Nat.div_eq_of_lt (by omega), Nat.div_eq_of_lt (by omega)]

/-- With a positive chunk size and enough fuel, the loop records the
ceiling of remaining cycles over chunk size many chunk summaries. -/
theorem CoSimKernel.loop_chunks_count {sc ρ : Type} (sp : KSpec sc ρ)
    (hch : 0 < sp.cycle_chunks) :
    ∀ (fuel cur idx : Nat) (st : KState sc ρ) (acc : RunAcc),
      sp.cycles - cur ≤ fuel →
      (CoSimKernel.loop sp fuel cur idx st acc).2.chunks.length =
        acc.chunks.length +
          (sp.cycles - cur + sp.cycle_chunks - 1) / sp.cycle_chunks := by
  intro fuel
  induction fuel with
  | zero =>
    intro cur idx st acc hfuel
    have h0 : sp.cycles - cur = 0 := by omega
    simp only [CoSimKernel.loop, h0]
    rw [Nat.div_eq_of_lt (by omega)]
    omega
  | succ fuel ih =>
    intro cur idx st acc hfuel
    simp only [CoSimKernel.loop]
    split
    · rename_i hcur
      rw [chunk_div_step sp.cycles sp.cycle_chunks cur hch hcur]
      have hfuel2 : sp.cycles - min (cur + sp.cycle_chunks) sp.cycles ≤
          fuel := by omega
      cases hp2 : sp.plant with
      | none =>
        rw [ih _ _ _ _ hfuel2]
        simp only [List.length_append, List.length_cons, List.length_nil]
        omega
      | some pp =>
        cases hres : CoSimKernel.resolve sp cur st with
        | none =>
          rw [ih _ _ _ _ hfuel2]
          simp only [List.length_append, List.length_cons, List.length_nil]
          omega
        | some r =>
          obtain ⟨i, e, a, c⟩ := r
          dsimp only
          rw [ih _ _ _ _ hfuel2, CoSimKernel.stepChunk_chunks]
          simp only [List.length_append, List.length_cons, List.length_nil]
          omega
    · rename_i hcur
      have h0 : sp.cycles - cur = 0 := by omega
      rw [h0, Nat.div_eq_of_lt (by omega)]
      dsimp only
      omega

/-- The reset phase of a run does not touch the generator state. -/
theorem CoSimKernel.resetPhase_rng {sc ρ : Type} (sp : KSpec sc ρ)
    (st : KState sc ρ) :
    (CoSimKernel.resetPhase sp st).rng = st.rng := by
  unfold CoSimKernel.resetPhase
  cases sp.controller <;> dsimp only <;> split <;> rfl

/-- The reset phase of a run does not touch the stored last outputs. -/
theorem CoSimKernel.resetPhase_last {sc ρ : Type} (sp : KSpec sc ρ)
    (st : KState sc ρ) :
    (CoSimKernel.resetPhase sp st).last = st.last := by
  unfold CoSimKernel.resetPhase
  cases sp.controller <;> dsimp only <;> split <;> rfl

/-- The reset phase of a run does not touch the plant thermal state. -/
theorem CoSimKernel.resetPhase_thermal {sc ρ : Type} (sp : KSpec sc ρ)
    (st : KState sc ρ) :
    (CoSimKernel.resetPhase sp st).thermal = st.thermal := by
  unfold CoSimKernel.resetPhase
  cases sp.controller <;> dsimp only <;> split <;> rfl

/-- C1 amended: on a freshly constructed kernel with a plant and a
schedule configured and a positive chunk size, a run produces exactly
one CRC event per chunk summary, the number of chunks is the ceiling of
total cycles over chunk size, and with a controller also configured the
controller step runs exactly once per chunk except the first. -/
theorem kernel_one_event_per_chunk {sc ρ : Type} (sp : KSpec sc ρ)
    (seedFn : Int → ρ) (t0 : ℚ) (c0 : sc)
    (pp : ThermalParams × ResonatorParams × ImpairmentParams)
    (f : Nat → PlantInputs) (hp : sp.plant = some pp)
    (hs : sp.schedule = some f) (hch : 0 < sp.cycle_chunks) :
    (CoSimKernel.run sp (CoSimKernel.mk sp seedFn t0 c0)).2.events.length =
      (CoSimKernel.run sp
        (CoSimKernel.mk sp seedFn t0 c0)).2.chunks.length ∧
    (CoSimKernel.run sp (CoSimKernel.mk sp seedFn t0 c0)).2.chunks.length =
      (sp.cycles + sp.cycle_chunks - 1) / sp.cycle_chunks ∧
    (∀ cimpl, sp.controller = some cimpl → 0 < sp.cycles →
      (CoSimKernel.run sp (CoSimKernel.mk sp seedFn t0 c0)).2.ctrlCalls + 1 =
        (CoSimKernel.run sp
          (CoSimKernel.mk sp seedFn t0 c0)).2.chunks.length) := by
  unfold CoSimKernel.run
  refine ⟨?_, ?_, ?_⟩
  · have h1 := CoSimKernel.loop_events_chunks sp pp f hp hs sp.cycles 0 0
      (CoSimKernel.resetPhase sp (CoSimKernel.mk sp seedFn t0 c0))
      RunAcc.empty
    rw [show RunAcc.empty.chunks.length = 0 from rfl,
      show RunAcc.empty.events.length = 0 from rfl] at h1
    omega
  · have h2 := CoSimKernel.loop_chunks_count sp hch sp.cycles 0 0
      (CoSimKernel.resetPhase sp (CoSimKernel.mk sp seedFn t0 c0))
      RunAcc.empty (by omega)
    rw [show RunAcc.empty.chunks.length = 0 from rfl] at h2
    rw [h2]
    simp
  · intro cimpl hcc hcyc
    have hlast : (CoSimKernel.resetPhase sp
        (CoSimKernel.mk sp seedFn t0 c0)).last = none := by
      rw [CoSimKernel.resetPhase_last]
      rfl
    obtain ⟨m, hm⟩ : ∃ m, sp.cycles = m + 1 := ⟨sp.cycles - 1, by omega⟩
    rw [hm]
    have h3 := CoSimKernel.loop_ctrlCalls_from_none sp pp f cimpl hp hs hcc
      m 0 0 (CoSimKernel.resetPhase sp (CoSimKernel.mk sp seedFn t0 c0))
      RunAcc.empty hlast hcyc
    rw [show RunAcc.empty.chunks.length = 0 from rfl,
      show RunAcc.empty.ctrlCalls = 0 from rfl] at h3
    omega

/-- Concrete plant parameters for the C1 instances: ambient zero, unit
RC, resonator pinned at zero detune, impairment floor zero. -/
def c1plant : ThermalParams × ResonatorParams × ImpairmentParams :=
  (⟨0, 1, 1, 1, 1⟩, ⟨0, 0, 1, 0, 0⟩, ⟨1 / 2, 0, 1⟩)

/-- Concrete constant schedule for the C1 instances. -/
def c1sched : Nat → PlantInputs := fun _ => ⟨0, 0, 0⟩

/-- Concrete bang-bang controller wiring for the C1 instances. -/
def c1ctrl : CtrlImpl ℚ :=
  ⟨fun _ => BangBangController.resetDuty,
   fun d i => BangBangController.step {} d i⟩

/-- Concrete kernel wiring for the C1 instances: four cycles in chunks
of two, plant, schedule and controller configured. -/
def c1spec : KSpec ℚ Nat :=
  ⟨4, 2, 0, some c1plant, some c1sched, some c1ctrl, 0, false, ⟨4, 8⟩,
    fun n => (1, n + 1)⟩

/-- Witness for the amended C1 at the concrete wiring. -/
theorem kernel_one_event_per_chunk_witness :
    (c1spec.plant = some c1plant ∧ c1spec.schedule = some c1sched ∧
      0 < c1spec.cycle_chunks) ∧
    ((CoSimKernel.run c1spec
        (CoSimKernel.mk c1spec Int.toNat 25 0)).2.events.length =
      (CoSimKernel.run c1spec
        (CoSimKernel.mk c1spec Int.toNat 25 0)).2.chunks.length ∧
    (CoSimKernel.run c1spec
        (CoSimKernel.mk c1spec Int.toNat 25 0)).2.chunks.length =
      (c1spec.cycles + c1spec.cycle_chunks - 1) / c1spec.cycle_chunks ∧
    (∀ cimpl, c1spec.controller = some cimpl → 0 < c1spec.cycles →
      (CoSimKernel.run c1spec
          (CoSimKernel.mk c1spec Int.toNat 25 0)).2.ctrlCalls + 1 =
        (CoSimKernel.run c1spec
          (CoSimKernel.mk c1spec Int.toNat 25 0)).2.chunks.length)) :=
  ⟨⟨rfl, rfl, by decide⟩,
    kernel_one_event_per_chunk c1spec Int.toNat 25 0 c1plant c1sched rfl
      rfl (by decide)⟩

/-- C1 counterexample: the concrete four-cycle run with chunk size two
records two CRC events, not four, and invokes the controller once, not
four times: events and controller invocations are per chunk, not per
cycle. -/
theorem kernel_events_per_cycle_counterexample :
    (CoSimKernel.run c1spec
        (CoSimKernel.mk c1spec Int.toNat 25 0)).2.events.length = 2 ∧
    (CoSimKernel.run c1spec
        (CoSimKernel.mk c1spec Int.toNat 25 0)).2.ctrlCalls = 1 ∧
    c1spec.cycles = 4 := by
  have h1 := CoSimKernel.loop_events_chunks c1spec c1plant c1sched rfl rfl
    c1spec.cycles 0 0
    (CoSimKernel.resetPhase c1spec (CoSimKernel.mk c1spec Int.toNat 25 0))
    RunAcc.empty
  have h2 := CoSimKernel.loop_chunks_count c1spec (by decide)
    c1spec.cycles 0 0
    (CoSimKernel.resetPhase c1spec (CoSimKernel.mk c1spec Int.toNat 25 0))
    RunAcc.empty (by omega)
  have h3 := CoSimKernel.loop_ctrlCalls_from_none c1spec c1plant c1sched
    c1ctrl rfl rfl rfl 3 0 0
    (CoSimKernel.resetPhase c1spec (CoSimKernel.mk c1spec Int.toNat 25 0))
    RunAcc.empty
    (by rw [CoSimKernel.resetPhase_last]; rfl) (by decide)
  rw [show RunAcc.empty.chunks.length = 0 from rfl,
    show RunAcc.empty.events.length = 0 from rfl] at h1
  rw [show RunAcc.empty.chunks.length = 0 from rfl] at h2
  rw [show RunAcc.empty.chunks.length = 0 from rfl,
    show RunAcc.empty.ctrlCalls = 0 from rfl] at h3
  rw [show (c1spec.cycles - 0 + c1spec.cycle_chunks - 1) /
      c1spec.cycle_chunks = 2 from by decide] at h2
  unfold CoSimKernel.run
  rw [show c1spec.cycles = 3 + 1 from rfl] at h1 h2 ⊢
  refine ⟨by omega, by omega, rfl⟩

/-- C2: the run is a pure function of the kernel wiring and the kernel
state, so two runs from identical seed, configuration, schedule,
controller and initial state produce identical time-series, event and
link-state sequences. -/
theorem kernel_run_deterministic {sc ρ : Type} (sp : KSpec sc ρ)
    (st1 st2 : KState sc ρ) (h : st1 = st2) :
    (CoSimKernel.run sp st1).2.timeseries =
      (CoSimKernel.run sp st2).2.timeseries ∧
    (CoSimKernel.run sp st1).2.events =
      (CoSimKernel.run sp st2).2.events ∧
    (CoSimKernel.run sp st1).2.link_states =
      (CoSimKernel.run sp st2).2.link_states := by
  subst h
  exact ⟨rfl, rfl, rfl⟩

/-- Witness for C2 at the concrete wiring. -/
theorem kernel_run_deterministic_witness :
    CoSimKernel.mk c1spec Int.toNat 25 0 =
      CoSimKernel.mk c1spec Int.toNat 25 0 ∧
    ((CoSimKernel.run c1spec
        (CoSimKernel.mk c1spec Int.toNat 25 0)).2.timeseries =
      (CoSimKernel.run c1spec
        (CoSimKernel.mk c1spec Int.toNat 25 0)).2.timeseries ∧
    (CoSimKernel.run c1spec
        (CoSimKernel.mk c1spec Int.toNat 25 0)).2.events =
      (CoSimKernel.run c1spec
        (CoSimKernel.mk c1spec Int.toNat 25 0)).2.events ∧
    (CoSimKernel.run c1spec
        (CoSimKernel.mk c1spec Int.toNat 25 0)).2.link_states =
      (CoSimKernel.run c1spec
        (CoSimKernel.mk c1spec Int.toNat 25 0)).2.link_states) :=
  ⟨rfl, kernel_run_deterministic c1spec _ _ rfl⟩

/-- Concrete plant for the C10 instance: constant temperature, detune
one half, locked, CRC failure probability exactly one half. -/
def c10plant : ThermalParams × ResonatorParams × ImpairmentParams :=
  (⟨0, 1, 1, 1, 1⟩, ⟨0, 0, 1, 1 / 2, 0⟩, ⟨1 / 2, 0, 1⟩)

/-- Concrete zero schedule for the C10 instance. -/
def c10sched : Nat → PlantInputs := fun _ => ⟨0, 0, 0⟩

/-- Concrete kernel wiring for the C10 instance: one cycle in one chunk,
no controller, no link runner, generator state counting the draws. -/
def c10spec : KSpec ℚ Nat :=
  ⟨1, 1, 0, some c10plant, some c10sched, none, 0, false, ⟨4, 8⟩,
    fun n => ((n : ℚ), n + 1)⟩

/-- A run of the C10 instance from any state at temperature zero draws
exactly one uniform value from the generator: the one recorded event
compares that draw against probability one half, and the generator
state advances by one. -/
theorem c10_run_step (st : KState ℚ Nat) (r : Nat)
    (hth : st.thermal = ⟨0⟩) (hr : st.rng = r) :
    (CoSimKernel.run c10spec st).2.events =
      [⟨0, 0, decide ((r : ℚ) < 1 / 2), 1 / 2⟩] ∧
    (CoSimKernel.run c10spec st).1.rng = r + 1 ∧
    (CoSimKernel.run c10spec st).1.thermal = ⟨0⟩ := by
  norm_num [CoSimKernel.run, CoSimKernel.loop, CoSimKernel.resetPhase,
    CoSimKernel.resolve, CoSimKernel.stepChunk, c10spec, c10plant,
    c10sched, RunAcc.empty, eval_plant_chain, step_thermal,
    eval_resonator, eval_impairment, impairment_remap, clamp01,
    smoothstep, sample_crc_event, hth, hr, abs_of_pos, min_def, max_def]

/-- C10: the kernel seeds the event sampler exactly once at
construction and starts with no stored last outputs; the reset phase of
a run resets only the controller and link states, leaving the generator
state and the stored last outputs untouched; the run is exactly the
loop started from that reset state; and on a concrete instance a second
run of the same kernel object continues from the generator state left
by the first run, producing a different event sequence than the first. -/
theorem kernel_run_frame_effects {sc ρ : Type} (sp : KSpec sc ρ)
    (seedFn : Int → ρ) (t0 : ℚ) (c0 : sc) (st : KState sc ρ) :
    (CoSimKernel.mk sp seedFn t0 c0).rng = seedFn sp.seed ∧
    (CoSimKernel.mk sp seedFn t0 c0).last = none ∧
    (CoSimKernel.resetPhase sp st).rng = st.rng ∧
    (CoSimKernel.resetPhase sp st).last = st.last ∧
    CoSimKernel.run sp st =
      CoSimKernel.loop sp sp.cycles 0 0 (CoSimKernel.resetPhase sp st)
        RunAcc.empty ∧
    (CoSimKernel.run c10spec (CoSimKernel.run c10spec
        (CoSimKernel.mk c10spec Int.toNat 0 0)).1).2.events ≠
      (CoSimKernel.run c10spec
        (CoSimKernel.mk c10spec Int.toNat 0 0)).2.events := by
  refine ⟨rfl, rfl, CoSimKernel.resetPhase_rng sp st,
    CoSimKernel.resetPhase_last sp st, rfl, ?_⟩
  have h1 := c10_run_step (CoSimKernel.mk c10spec Int.toNat 0 0) 0 rfl rfl
  have h2 := c10_run_step
    (CoSimKernel.run c10spec (CoSimKernel.mk c10spec Int.toNat 0 0)).1 1
    h1.2.2 h1.2.1
  rw [h2.1, h1.1]
  have d1 : decide (((1 : Nat) : ℚ) < 1 / 2) = false := by
    rw [decide_eq_false_iff_not]
    norm_num
  have d0 : decide (((0 : Nat) : ℚ) < 1 / 2) = true := by
    rw [decide_eq_true_eq]
    norm_num
  rw [d1, d0]
  simp
